import Mathlib

/-!
Verification development for the `node-file-server` repository
(`src/main.mjs`), a minimal content-addressed object store over HTTP.

The embedding below translates the relevant parts of the source into Lean:

* Node's `path.posix` arithmetic (`join`, `resolve`, `normalize`,
  `dirname`, `extname`) — pure string functions used by the server;
* `resolveSafePath` (main.mjs lines 17–25);
* SHA-256 (the behavior of `crypto.createHash("sha256")` /
  `hash.digest("hex")` used by `computeFileSha256Hex`, lines 27–35),
  implemented from FIPS 180-4 over byte lists, with `Nat` arithmetic
  modulo `2 ^ 32`;
* a filesystem model (association list from absolute path to byte
  content) together with the `access`/`unlink`/`mkdir`/`rename`
  behavior of the `fs.promises` calls the server makes;
* the multer `diskStorage` callbacks (lines 43–73), the hashed-upload
  handler `app.post("/:bucket")` (lines 77–117) including its dedup
  block (lines 101–110), and the direct-write handler
  `app.put("/:bucket/:key(.*)")` (lines 119–141).

JavaScript strings are modeled as Lean `String`s via their character
lists; JS `||` on possibly-empty strings is modeled by `pickKey` and
explicit `if s ≠ "" then ... else ...`.
-/

deriving instance DecidableEq for Except

/-! ## JavaScript string primitives -/

/-- Model of JS `s.startsWith(p)`: `p` is a prefix of `s`. -/
def strStarts (s p : String) : Bool := p.data.isPrefixOf s.data

/-- Model of JS `s.endsWith(p)`: `p` is a suffix of `s`. -/
def strEnds (s p : String) : Bool := p.data.isSuffixOf s.data

/-- Model of JS `s.replace(/\\/g, "/")`: every backslash becomes a slash. -/
def slashify (s : String) : String :=
  ⟨s.data.map (fun c => if c = '\\' then '/' else c)⟩

/-! ## Node `path.posix` arithmetic

Faithful translations of the `path.posix` functions used by
`src/main.mjs` (node `lib/path.js`, posix variants), over `/`-separated
strings. -/

/-- Split a character list on `/`; empty segments are kept (they are
skipped later by normalization, as in node's `normalizeString`). -/
def splitSegsAux (cur : List Char) : List Char → List (List Char)
  | [] => [cur.reverse]
  | c :: cs => if c = '/' then cur.reverse :: splitSegsAux [] cs
               else splitSegsAux (c :: cur) cs

/-- Segments of a path string (split on the separator). -/
def splitSegs (cs : List Char) : List (List Char) := splitSegsAux [] cs

/-- Join segments with `/` (node's string concatenation of components). -/
def joinSegs : List (List Char) → List Char
  | [] => []
  | [s] => s
  | s :: rest => s ++ '/' :: joinSegs rest

/-- One step of node's `normalizeString`: the accumulator holds the
already-processed segments in reverse.  `""` and `"."` are dropped;
`".."` pops the previous segment, or is kept (relative paths,
`allowAbove = true`) / dropped (absolute paths) when there is nothing
to pop. -/
def normStep (allowAbove : Bool) (acc : List (List Char)) (seg : List Char) :
    List (List Char) :=
  if seg = [] ∨ seg = ['.'] then acc
  else if seg = ['.', '.'] then
    match acc with
    | [] => if allowAbove then [seg] else []
    | a :: rest => if a = ['.', '.'] then (if allowAbove then seg :: acc else acc)
                   else rest
  else seg :: acc

/-- Node's `normalizeString`: collapse `.` and `..` segments. -/
def normalizeSegs (allowAbove : Bool) (segs : List (List Char)) :
    List (List Char) :=
  (segs.foldl (normStep allowAbove) []).reverse

/-- Node `path.posix.normalize`. -/
def posixNormalize (p : String) : String :=
  if p.data = [] then "." else
  let isAbs := strStarts p "/"
  let trail := strEnds p "/"
  let body := joinSegs (normalizeSegs (!isAbs) (splitSegs p.data))
  if body = [] then (if isAbs then "/" else if trail then "./" else ".")
  else ⟨(if isAbs then '/' :: body else body) ++ (if trail then ['/'] else [])⟩

/-- Node `path.posix.join`: drop empty arguments, concatenate with `/`,
normalize; with no non-empty arguments the result is `"."`. -/
def posixJoin (segments : List String) : String :=
  match segments.filter (fun s => s.data ≠ []) with
  | [] => "."
  | ss => posixNormalize ⟨joinSegs (ss.map String.data)⟩

/-- Node `path.posix.resolve root rel` for an absolute `root` (the only
use in the source: `publicRoot` is absolute): if `rel` is absolute it
wins, otherwise it is appended to `root`; the combination is normalized
with `..` never escaping above `/`, and the result carries no trailing
separator (except the bare root `/`). -/
def posixResolve (root rel : String) : String :=
  let combined := if strStarts rel "/" then rel.data
                  else root.data ++ '/' :: rel.data
  ⟨'/' :: joinSegs (normalizeSegs false (splitSegs combined))⟩

/-- Node `path.posix.dirname`. -/
def dirname (p : String) : String :=
  if p.data = [] then "." else
  let cs := p.data
  let hasRoot := cs.head? = some '/'
  let rev := cs.reverse.take (cs.length - 1)
  let r2 := (rev.dropWhile (fun c => c = '/')).dropWhile (fun c => c ≠ '/')
  if r2 = [] then (if hasRoot then "/" else ".")
  else if hasRoot ∧ r2.length = 1 then "//"
  else ⟨cs.take r2.length⟩

/-- Index of the last `.` in a character list, if any. -/
def lastDotIdxAux : List Char → Nat → Option Nat → Option Nat
  | [], _, acc => acc
  | c :: cs, i, acc => lastDotIdxAux cs (i + 1) (if c = '.' then some i else acc)

/-- Index of the last `.` in a character list, if any. -/
def lastDotIdx (b : List Char) : Option Nat := lastDotIdxAux b 0 none

/-- Extension of a path's trailing non-slash run `b` (node `extname`
after trimming trailing slashes and taking the last component): the
text from the last dot on, except that a lone leading dot, or the
component `..`, yields the empty extension. -/
def extRule (b : List Char) : List Char :=
  match lastDotIdx b with
  | none => []
  | some d =>
    if d = 0 then []
    else if b.head? = some '.' ∧ d = b.length - 1 ∧ d = 1 then []
    else b.drop d

/-- Node `path.posix.extname`. -/
def extname (p : String) : String :=
  let cs := p.data
  let trimmed := (cs.reverse.dropWhile (fun c => c = '/')).reverse
  let b := (trimmed.reverse.takeWhile (fun c => c ≠ '/')).reverse
  ⟨extRule b⟩

/-! ## `resolveSafePath` (main.mjs lines 17–25)

The source:
```
function resolveSafePath(rootDir, ...segments) \x7b
  const unsafePath = path.join(...segments);
  const resolved = path.resolve(rootDir, unsafePath);
  const normalizedRoot = rootDir.endsWith(path.sep) ? rootDir : rootDir + path.sep;
  if (!(resolved + path.sep).startsWith(normalizedRoot)) \x7b
    throw new Error("Invalid path");
  \x7d
  return resolved;
\x7d
```
`throw` is modeled by `Except.error` carrying the JS error message; the
function performs no filesystem access (it is pure in the source and
pure here). -/
def resolveSafePath (rootDir : String) (segments : List String) :
    Except String String :=
  let unsafePath := posixJoin segments
  let resolved := posixResolve rootDir unsafePath
  let normalizedRoot := if strEnds rootDir "/" then rootDir else rootDir ++ "/"
  if strStarts (resolved ++ "/") normalizedRoot then Except.ok resolved
  else Except.error "Invalid path"

/-- Candidate path that `resolveSafePath` checks: the lexical
normalization of `rootDir` joined with the segments. -/
def resolveCandidate (rootDir : String) (segments : List String) : String :=
  posixResolve rootDir (posixJoin segments)

/-! ## SHA-256 (FIPS 180-4)

Model of `crypto.createHash("sha256")` followed by `digest("hex")`,
as used by `computeFileSha256Hex` (main.mjs lines 27–35).  Words are
`Nat`s kept below `2 ^ 32`; bytes are `Nat`s below `256`. -/

/-- Rotate the 32-bit word `x` right by `n` bit positions. -/
def rotr32 (n x : Nat) : Nat := ((x >>> n) ||| (x <<< (32 - n))) &&& 0xffffffff

/-- SHA-256 choice function. -/
def shaCh (x y z : Nat) : Nat := (x &&& y) ^^^ ((x ^^^ 0xffffffff) &&& z)

/-- SHA-256 majority function. -/
def shaMaj (x y z : Nat) : Nat := (x &&& y) ^^^ (x &&& z) ^^^ (y &&& z)

/-- SHA-256 big sigma 0. -/
def bsig0 (x : Nat) : Nat := rotr32 2 x ^^^ rotr32 13 x ^^^ rotr32 22 x

/-- SHA-256 big sigma 1. -/
def bsig1 (x : Nat) : Nat := rotr32 6 x ^^^ rotr32 11 x ^^^ rotr32 25 x

/-- SHA-256 small sigma 0. -/
def ssig0 (x : Nat) : Nat := rotr32 7 x ^^^ rotr32 18 x ^^^ (x >>> 3)

/-- SHA-256 small sigma 1. -/
def ssig1 (x : Nat) : Nat := rotr32 17 x ^^^ rotr32 19 x ^^^ (x >>> 10)

/-- SHA-256 round constants (FIPS 180-4 section 4.2.2, written in
decimal). -/
def shaK : List Nat :=
  [1116352408, 1899447441, 3049323471, 3921009573, 961987163,
   1508970993, 2453635748, 2870763221, 3624381080, 310598401,
   607225278, 1426881987, 1925078388, 2162078206, 2614888103,
   3248222580, 3835390401, 4022224774, 264347078, 604807628,
   770255983, 1249150122, 1555081692, 1996064986, 2554220882,
   2821834349, 2952996808, 3210313671, 3336571891, 3584528711,
   113926993, 338241895, 666307205, 773529912, 1294757372,
   1396182291, 1695183700, 1986661051, 2177026350, 2456956037,
   2730485921, 2820302411, 3259730800, 3345764771, 3516065817,
   3600352804, 4094571909, 275423344, 430227734, 506948616,
   659060556, 883997877, 958139571, 1322822218, 1537002063,
   1747873779, 1955562222, 2024104815, 2227730452, 2361852424,
   2428436474, 2756734187, 3204031479, 3329325298]

/-- The eight 32-bit words of a SHA-256 state. -/
structure H8 where
  a : Nat
  b : Nat
  c : Nat
  d : Nat
  e : Nat
  f : Nat
  g : Nat
  h : Nat

/-- SHA-256 initial state (FIPS 180-4 section 5.3.3, written in
decimal). -/
def initH : H8 :=
  ⟨1779033703, 3144134277, 1013904242, 2773480762,
   1359893119, 2600822924, 528734635, 1541459225⟩

/-- Big-endian 4-byte groups to 32-bit words. -/
def bytesToW : List Nat → List Nat
  | b0 :: b1 :: b2 :: b3 :: rest =>
      (b0 * 16777216 + b1 * 65536 + b2 * 256 + b3) :: bytesToW rest
  | _ => []

/-- Message-schedule extension: the accumulator holds the schedule so
far in reverse; each step appends
`ssig1 W(t-2) + W(t-7) + ssig0 W(t-15) + W(t-16)` modulo `2 ^ 32`. -/
def scheduleAux : Nat → List Nat → List Nat
  | 0, acc => acc
  | n + 1, acc =>
      let x := (ssig1 (acc.getD 1 0) + acc.getD 6 0 +
                ssig0 (acc.getD 14 0) + acc.getD 15 0) % 4294967296
      scheduleAux n (x :: acc)

/-- Full 64-word message schedule from the 16 block words. -/
def schedule (w16 : List Nat) : List Nat := (scheduleAux 48 w16.reverse).reverse

/-- One SHA-256 compression round. -/
def roundStep (st : H8) (kw : Nat × Nat) : H8 :=
  let t1 := (st.h + bsig1 st.e + shaCh st.e st.f st.g + kw.1 + kw.2) % 4294967296
  let t2 := (bsig0 st.a + shaMaj st.a st.b st.c) % 4294967296
  ⟨(t1 + t2) % 4294967296, st.a, st.b, st.c,
   (st.d + t1) % 4294967296, st.e, st.f, st.g⟩

/-- Process one 64-byte block: 64 rounds, then add into the state. -/
def processBlock (st : H8) (block : List Nat) : H8 :=
  let r := (shaK.zip (schedule (bytesToW block))).foldl roundStep st
  ⟨(st.a + r.a) % 4294967296, (st.b + r.b) % 4294967296,
   (st.c + r.c) % 4294967296, (st.d + r.d) % 4294967296,
   (st.e + r.e) % 4294967296, (st.f + r.f) % 4294967296,
   (st.g + r.g) % 4294967296, (st.h + r.h) % 4294967296⟩

/-- Big-endian 8-byte rendering of the bit length. -/
def lenBytes8 (n : Nat) : List Nat :=
  [n >>> 56 &&& 255, n >>> 48 &&& 255, n >>> 40 &&& 255, n >>> 32 &&& 255,
   n >>> 24 &&& 255, n >>> 16 &&& 255, n >>> 8 &&& 255, n &&& 255]

/-- SHA-256 padding: a `0x80` byte, zeros to 56 mod 64, and the 64-bit
big-endian bit length. -/
def padMsg (bs : List Nat) : List Nat :=
  bs ++ 128 :: (List.replicate ((119 - bs.length % 64) % 64) 0 ++
    lenBytes8 (8 * bs.length))

/-- Split into 64-byte blocks; the fuel argument (instantiated with the
list length) keeps the recursion structural. -/
def chunks64F : Nat → List Nat → List (List Nat)
  | 0, _ => []
  | _ + 1, [] => []
  | n + 1, l => l.take 64 :: chunks64F n (l.drop 64)

/-- SHA-256 final state of a byte message. -/
def sha256Words (bs : List Nat) : H8 :=
  let p := padMsg bs
  (chunks64F p.length p).foldl processBlock initH

/-- Big-endian bytes of a 32-bit word. -/
def w4bytes (w : Nat) : List Nat :=
  [w >>> 24 &&& 255, w >>> 16 &&& 255, w >>> 8 &&& 255, w &&& 255]

/-- SHA-256 digest (32 bytes) of a byte message. -/
def sha256Bytes (bs : List Nat) : List Nat :=
  let st := sha256Words bs
  w4bytes st.a ++ w4bytes st.b ++ w4bytes st.c ++ w4bytes st.d ++
  w4bytes st.e ++ w4bytes st.f ++ w4bytes st.g ++ w4bytes st.h

/-- Lowercase hexadecimal alphabet used by node's `digest("hex")`. -/
def hexAlphabet : String := "0123456789abcdef"

/-- Lowercase hex character of a nibble. -/
def hexDigit (n : Nat) : Char := hexAlphabet.data.getD (n % 16) '0'

/-- Lowercase hex rendering of a byte list (two characters per byte). -/
def bytesToHexL : List Nat → List Char
  | [] => []
  | b :: bs => hexDigit (b / 16) :: hexDigit b :: bytesToHexL bs

/-- Model of `computeFileSha256Hex` applied to a byte content: the
SHA-256 digest rendered as lowercase hex (main.mjs lines 27–35 plus
`hash.digest("hex")`). -/
def sha256HexStr (bs : List Nat) : String := ⟨bytesToHexL (sha256Bytes bs)⟩

/-! ## Filesystem model

Regular files only, as an association list from absolute path to byte
content; directories are implicit (every `mkdir` in the source is
`recursive: true` and only prepares ancestors, so it does not change
which files exist).  `fsInsert` first removes any entry at the same
path, so a well-formed state never holds two entries for one path. -/

/-- Filesystem state. -/
abbrev FS : Type := List (String × List Nat)

/-- Content at a path, if a file exists there. -/
def fsLookup : FS → String → Option (List Nat)
  | [], _ => none
  | (q, b) :: rest, p => if q = p then some b else fsLookup rest p

/-- Delete every entry at a path (JS `fs.promises.unlink`). -/
def fsRemove (p : String) : FS → FS
  | [] => []
  | e :: rest => if e.1 = p then fsRemove p rest else e :: fsRemove p rest

/-- Create or replace the file at a path. -/
def fsInsert (p : String) (b : List Nat) (fs : FS) : FS := (p, b) :: fsRemove p fs

/-- Number of filesystem entries at a path. -/
def fsCount : FS → String → Nat
  | [], _ => 0
  | e :: rest, p => (if e.1 = p then 1 else 0) + fsCount rest p

/-! ## Request handling (main.mjs lines 43–141)

JSON response bodies are modeled as ordered field lists, mirroring the
object literals passed to `res.json`. -/

/-- JSON values appearing in the server's responses. -/
inductive JVal where
  | str : String → JVal
  | num : Nat → JVal
deriving DecidableEq, Repr

/-- HTTP status code plus JSON body. -/
abbrev HttpResp : Type := Nat × List (String × JVal)

/-- Response built by `res.status(code).json(\x7b error: msg \x7d)`. -/
def errResp (code : Nat) (msg : String) : HttpResp :=
  (code, [("error", JVal.str msg)])

/-- JS `(req.body.key || req.body.Key) || ""`: the form field `key`
wins unless it is falsy (absent or empty), in which case the
capitalized `Key` is used, defaulting to empty. -/
def pickKey (key keyCap : String) : String := if key ≠ "" then key else keyCap

/-- Directory component of the logical key (lines 49–50 and 82–83):
`dirname` of a non-empty key, with `"."` normalized to `""`. -/
def keyDirPart (fullKey : String) : String :=
  let dirName := if fullKey ≠ "" then dirname fullKey else ""
  if dirName = "." then "" else dirName

/-- Extension used for the final object name (line 93):
`path.extname(originalname || fullKey || "")` — the original upload
filename takes precedence over the logical key. -/
def postExtOf (originalname fullKey : String) : String :=
  extname (if originalname ≠ "" then originalname else fullKey)

/-- Key relative to the bucket (lines 89 and 98): the leaf joined under
the directory component when one is present. -/
def mkKeyIn (finalDir leaf : String) : String :=
  if finalDir ≠ "" then posixJoin [finalDir, leaf] else leaf

/-- Final bucket-relative key of a hashed upload (lines 96–98): the
content fingerprint plus the extension, placed under the logical key's
directory component. -/
def postFinalKeyOf (fullKey originalname : String) (content : List Nat) :
    String :=
  mkKeyIn (keyDirPart fullKey) (sha256HexStr content ++ postExtOf originalname fullKey)

/-- Injectable failures of the filesystem calls in the dedup block
(`none` means the call behaves normally). -/
structure PostEnv where
  unlinkErr : Option String
  mkdirErr : Option String
  renameErr : Option String

/-- Fault-free environment. -/
def cleanPostEnv : PostEnv := ⟨none, none, none⟩

/-- Multer `storage.destination` (lines 44–59): resolve the staging
directory for a request; `mkdir` only creates directories, so the file
map is unchanged. -/
def storageDestination (root bucket key keyCap : String) : Except String String :=
  let rawKey := pickKey key keyCap
  let dirName := if rawKey ≠ "" then dirname rawKey else ""
  let finalDir := if dirName = "." then "" else dirName
  resolveSafePath root [bucket, finalDir]

/-- Multer `storage.filename` (lines 60–72): a random hex name
(passed in, since it is `crypto.randomBytes`) plus the extension of
`key || originalname || ""`. -/
def storageFilename (key keyCap originalname randomHex : String) : String :=
  let k := pickKey key keyCap
  let extSource := if k ≠ "" then k else originalname
  randomHex ++ extname extSource

/-- Action half of the dedup block (lines 102–110), parameterized by
the result `destExists` of the earlier `fs.promises.access` check so
that interleavings can act on a stale check.  The inner `try` catches
any failure of `access` or `unlink` and falls through to
`mkdir` + `rename`; POSIX `rename` silently replaces an existing
destination and fails only on injected faults or a missing source. -/
def finalizeCheckedAct (env : PostEnv) (destExists : Bool)
    (tempPath finalPath : String) (fs : FS) : Except String FS :=
  if destExists ∧ env.unlinkErr = none ∧ (fsLookup fs tempPath).isSome then
    Except.ok (fsRemove tempPath fs)
  else
    match env.mkdirErr with
    | some m => Except.error m
    | none =>
      match env.renameErr with
      | some m => Except.error m
      | none =>
        match fsLookup fs tempPath with
        | none => Except.error "ENOENT: no such file or directory, rename"
        | some b => Except.ok (fsInsert finalPath b (fsRemove tempPath fs))

/-- Sequential dedup block (lines 101–110): existence check immediately
followed by its action. -/
def finalizeStep (env : PostEnv) (tempPath finalPath : String) (fs : FS) :
    Except String FS :=
  finalizeCheckedAct env (fsLookup fs finalPath).isSome tempPath finalPath fs

/-- Body of the hashed-upload handler `app.post("/:bucket")`
(lines 77–117), after the key fields have been collapsed by `pickKey`.
Every thrown error is caught by the single `catch` and becomes a 400
response with the error message. -/
def postCore (env : PostEnv) (root bucket fullKey originalname
    savedFileName : String) (size : Nat) (fs : FS) : HttpResp × FS :=
  let finalDir := keyDirPart fullKey
  if savedFileName = "" then (errResp 400 "Missing uploaded file", fs)
  else
    match resolveSafePath root [bucket, mkKeyIn finalDir savedFileName] with
    | Except.error m => (errResp 400 m, fs)
    | Except.ok tempPath =>
      match fsLookup fs tempPath with
      | none => (errResp 400 "ENOENT: no such file or directory, open", fs)
      | some content =>
        let hex := sha256HexStr content
        let finalKey := postFinalKeyOf fullKey originalname content
        match resolveSafePath root [bucket, finalKey] with
        | Except.error m => (errResp 400 m, fs)
        | Except.ok finalPath =>
          match finalizeStep env tempPath finalPath fs with
          | Except.error m => (errResp 400 m, fs)
          | Except.ok fs2 =>
            ((200, [("bucket", JVal.str bucket), ("key", JVal.str finalKey),
                    ("path", JVal.str finalPath),
                    ("url", JVal.str (slashify ("/public/" ++ bucket ++ "/" ++ finalKey))),
                    ("size", JVal.num size), ("sha256", JVal.str hex)]), fs2)

/-- Hashed-upload request as the handler sees it: `""` in `key`,
`keyCap`, or `savedFileName` models a falsy (absent) value. -/
structure PostReq where
  bucket : String
  key : String
  keyCap : String
  originalname : String
  savedFileName : String
  size : Nat

/-- Hashed-upload handler `app.post("/:bucket")` on a request. -/
def postHandler (env : PostEnv) (root : String) (req : PostReq) (fs : FS) :
    HttpResp × FS :=
  postCore env root req.bucket (pickKey req.key req.keyCap) req.originalname
    req.savedFileName req.size fs

/-- Injectable failures for the direct-write handler: `mkdirErr` for
`fs.promises.mkdir`, and `streamErr` for a write-stream error together
with the partial bytes left at the destination. -/
structure PutEnv where
  mkdirErr : Option String
  streamErr : Option (String × List Nat)

/-- Fault-free environment. -/
def cleanPutEnv : PutEnv := ⟨none, none⟩

/-- Direct-write handler `app.put("/:bucket/:key(.*)")` (lines
119–141): missing key and resolution or `mkdir` failures give 400; a
write-stream failure gives 500 and leaves a partial file; otherwise the
destination is created or truncated and fully replaced by the body. -/
def putHandler (env : PutEnv) (root bucket key : String) (body : List Nat)
    (fs : FS) : HttpResp × FS :=
  if key = "" then (errResp 400 "Missing key", fs)
  else
    match resolveSafePath root [bucket, key] with
    | Except.error m => (errResp 400 m, fs)
    | Except.ok outPath =>
      match env.mkdirErr with
      | some m => (errResp 400 m, fs)
      | none =>
        match env.streamErr with
        | some pe => (errResp 500 pe.1, fsInsert outPath pe.2 fs)
        | none =>
          ((200, [("bucket", JVal.str bucket), ("key", JVal.str key),
                  ("path", JVal.str outPath),
                  ("url", JVal.str (slashify ("/public/" ++ bucket ++ "/" ++ key)))]),
           fsInsert outPath body fs)

/-! ## Concrete values used by witnesses and counterexamples -/

/-- Byte content of the ASCII string `hello`. -/
def helloBytes : List Nat := [104, 101, 108, 108, 111]

/-- SHA-256 fingerprint of `hello` (the spec's own example value). -/
def helloHex : String :=
  "2cf24dba5fb0a30e26e83b2ac5b9e29e1b161e5c1fa7425e73043362938b9824"

/-! ## Helper lemmas -/

/-- Sanity check of the SHA-256 model against the standard test vector
for the empty message. -/
theorem sha256HexStr_empty :
    sha256HexStr [] =
      "e3b0c44298fc1c149afbf4c8996fb92427ae41e4649b934ca495991b7852b855" := by
  decide

/-- Sanity check of the SHA-256 model against the digest of `hello`
(the example used in the spec). -/
theorem sha256HexStr_hello : sha256HexStr helloBytes = helloHex := by decide

/-- Lookup after removing a path finds nothing at that path. -/
theorem fsLookup_fsRemove_self (p : String) (fs : FS) :
    fsLookup (fsRemove p fs) p = none := by
  induction fs with
  | nil => rfl
  | cons e rest ih =>
    by_cases h : e.1 = p <;> simp [fsRemove, h, fsLookup, ih]

/-- Removing one path leaves lookups at other paths unchanged. -/
theorem fsLookup_fsRemove_ne (p q : String) (fs : FS) (h : q ≠ p) :
    fsLookup (fsRemove p fs) q = fsLookup fs q := by
  induction fs with
  | nil => rfl
  | cons e rest ih =>
    by_cases he : e.1 = p
    · have hq : ¬ (p = q) := fun hc => h hc.symm
      simp [fsRemove, he, fsLookup, hq, ih]
    · simp [fsRemove, he, fsLookup, ih]

/-- Lookup right after an insert finds the inserted content. -/
theorem fsLookup_fsInsert_self (p : String) (b : List Nat) (fs : FS) :
    fsLookup (fsInsert p b fs) p = some b := by
  simp [fsInsert, fsLookup]

/-- Inserting at one path leaves lookups at other paths unchanged. -/
theorem fsLookup_fsInsert_ne (p q : String) (b : List Nat) (fs : FS)
    (h : q ≠ p) :
    fsLookup (fsInsert p b fs) q = fsLookup fs q := by
  have hpq : p ≠ q := fun hc => h hc.symm
  simp [fsInsert, fsLookup, hpq]
  exact fsLookup_fsRemove_ne p q fs h

/-- Removal empties a path. -/
theorem fsCount_fsRemove_self (p : String) (fs : FS) :
    fsCount (fsRemove p fs) p = 0 := by
  induction fs with
  | nil => rfl
  | cons e rest ih =>
    by_cases h : e.1 = p <;> simp [fsRemove, h, fsCount, ih]

/-- Removing one path does not change the entry count at another. -/
theorem fsCount_fsRemove_ne (p q : String) (fs : FS) (h : q ≠ p) :
    fsCount (fsRemove p fs) q = fsCount fs q := by
  induction fs with
  | nil => rfl
  | cons e rest ih =>
    by_cases he : e.1 = p
    · have hq : ¬ (p = q) := fun hc => h hc.symm
      simp [fsRemove, he, fsCount, hq, ih]
    · simp [fsRemove, he, fsCount, ih]

/-- An insert leaves exactly one entry at its path. -/
theorem fsCount_fsInsert_self (p : String) (b : List Nat) (fs : FS) :
    fsCount (fsInsert p b fs) p = 1 := by
  simp [fsInsert, fsCount, fsCount_fsRemove_self]

/-- Inserting at one path does not change the entry count at another. -/
theorem fsCount_fsInsert_ne (p q : String) (b : List Nat) (fs : FS)
    (h : q ≠ p) :
    fsCount (fsInsert p b fs) q = fsCount fs q := by
  have hpq : p ≠ q := fun hc => h hc.symm
  simp [fsInsert, fsCount, hpq]
  exact fsCount_fsRemove_ne p q fs h

/-- A present file means a positive entry count. -/
theorem fsCount_pos_of_lookup (p : String) (b : List Nat) (fs : FS)
    (h : fsLookup fs p = some b) : 0 < fsCount fs p := by
  induction fs with
  | nil => exact absurd h (by simp [fsLookup])
  | cons e rest ih =>
    by_cases he : e.1 = p
    · simp [fsCount, he]
    · simp [fsLookup, he] at h
      have := ih h
      simp [fsCount, he]
      omega

/-- Element access with a default stays inside the list when the index
is in range. -/
theorem getD_mem : ∀ (l : List Char) (n : Nat) (d : Char),
    n < l.length → l.getD n d ∈ l
  | a :: _, 0, _, _ => List.mem_cons_self a _
  | a :: l, n + 1, d, h =>
      List.mem_cons_of_mem a (getD_mem l n d (by simpa using h))

/-- Every rendered nibble is a lowercase hexadecimal character. -/
theorem hexDigit_mem (n : Nat) : hexDigit n ∈ hexAlphabet.data := by
  have h16 : n % 16 < hexAlphabet.data.length := by
    rw [show hexAlphabet.data.length = 16 from rfl]
    exact Nat.mod_lt n (by decide)
  exact getD_mem _ _ _ h16

/-- Every character of a hex rendering is a lowercase hexadecimal
character. -/
theorem bytesToHexL_mem : ∀ (bs : List Nat) (c : Char),
    c ∈ bytesToHexL bs → c ∈ hexAlphabet.data
  | [], c, h => absurd h (by simp [bytesToHexL])
  | b :: bs, c, h => by
    rcases List.mem_cons.mp h with rfl | h2
    · exact hexDigit_mem _
    rcases List.mem_cons.mp h2 with rfl | h3
    · exact hexDigit_mem _
    · exact bytesToHexL_mem bs c h3

/-- A hex rendering has two characters per byte. -/
theorem bytesToHexL_length : ∀ bs : List Nat,
    (bytesToHexL bs).length = 2 * bs.length
  | [] => rfl
  | b :: bs => by
    simp [bytesToHexL, bytesToHexL_length bs]
    omega

/-- A SHA-256 digest has 32 bytes. -/
theorem sha256Bytes_length (bs : List Nat) : (sha256Bytes bs).length = 32 := by
  simp [sha256Bytes, w4bytes]

/-- A rendered SHA-256 fingerprint has 64 characters. -/
theorem sha256HexStr_length (bs : List Nat) : (sha256HexStr bs).length = 64 := by
  show (bytesToHexL (sha256Bytes bs)).length = 64
  rw [bytesToHexL_length, sha256Bytes_length]

/-- Appending the same character to two lists turns the prefix relation
into equality-or-separator-bounded-prefix.  This is the heart of the
`rootDir + sep` trick in `resolveSafePath`. -/
theorem concatPfxIff (r s : List Char) (c : Char) :
    (r ++ [c]) <+: (s ++ [c]) ↔ r = s ∨ (r ++ [c]) <+: s := by
  constructor
  · intro h
    have h1 : (r ++ [c]).reverse <:+ (s ++ [c]).reverse :=
      List.reverse_suffix.mpr h
    have e1 : (r ++ [c]).reverse = c :: r.reverse := by simp
    have e2 : (s ++ [c]).reverse = c :: s.reverse := by simp
    rw [e1, e2] at h1
    rcases List.suffix_cons_iff.mp h1 with h2 | h2
    · left
      have h3 : r.reverse = s.reverse := by injection h2
      exact List.reverse_injective h3
    · right
      have h3 : (r ++ [c]).reverse <:+ s.reverse := by rw [e1]; exact h2
      exact List.reverse_suffix.mp h3
  · rintro (rfl | h)
    · exact List.prefix_rfl
    · exact h.trans (List.prefix_append s [c])

/-- Boolean prefix test unfolded to the list prefix relation. -/
theorem strStarts_iff_data (s p : String) :
    strStarts s p = true ↔ p.data <+: s.data := by
  simp [strStarts]

/-- Unfolding of `resolveSafePath` when the root carries no trailing
separator, as a single conditional on the code's prefix check. -/
theorem resolveSafePath_eq_ite (root : String) (segs : List String)
    (hroot : strEnds root "/" = false) :
    resolveSafePath root segs =
      if strStarts (resolveCandidate root segs ++ "/") (root ++ "/") = true
      then Except.ok (resolveCandidate root segs)
      else Except.error "Invalid path" := by
  simp only [resolveSafePath, resolveCandidate, hroot, Bool.false_eq_true,
    if_false]

/-- The code's check `(resolved + sep).startsWith(root + sep)` holds
exactly when the candidate equals the root or extends it across a
separator. -/
theorem safeCheck_iff (root : String) (segs : List String) :
    strStarts (resolveCandidate root segs ++ "/") (root ++ "/") = true ↔
      (resolveCandidate root segs = root ∨
       strStarts (resolveCandidate root segs) (root ++ "/") = true) := by
  have hslash : ("/" : String).data = ['/'] := rfl
  rw [strStarts_iff_data, strStarts_iff_data, String.data_append,
    String.data_append, hslash, concatPfxIff]
  constructor
  · rintro (h | h)
    · exact Or.inl (String.ext h).symm
    · exact Or.inr h
  · rintro (h | h)
    · exact Or.inl (congrArg String.data h.symm)
    · exact Or.inr h

/-- Specification of `resolveSafePath`: success returns exactly the
lexically normalized candidate and happens exactly when the candidate
is the root or a separator-bounded descendant; otherwise the resolver
fails with the `Invalid path` error. -/
theorem resolveSafePath_spec (root : String) (segs : List String)
    (hroot : strEnds root "/" = false) :
    (resolveSafePath root segs = Except.ok (resolveCandidate root segs) ↔
      (resolveCandidate root segs = root ∨
       strStarts (resolveCandidate root segs) (root ++ "/") = true)) ∧
    (¬ (resolveCandidate root segs = root ∨
        strStarts (resolveCandidate root segs) (root ++ "/") = true) →
      resolveSafePath root segs = Except.error "Invalid path") := by
  rw [resolveSafePath_eq_ite root segs hroot]
  cases hb : strStarts (resolveCandidate root segs ++ "/") (root ++ "/") with
  | true =>
    rw [if_pos rfl]
    exact ⟨⟨fun _ => (safeCheck_iff root segs).mp hb, fun _ => rfl⟩,
      fun hn => absurd ((safeCheck_iff root segs).mp hb) hn⟩
  | false =>
    rw [if_neg Bool.false_ne_true]
    have hnc : ¬ (resolveCandidate root segs = root ∨
        strStarts (resolveCandidate root segs) (root ++ "/") = true) := by
      intro hcnd
      have hbt := (safeCheck_iff root segs).mpr hcnd
      rw [hb] at hbt
      exact Bool.false_ne_true hbt
    exact ⟨⟨fun h => Except.noConfusion h, fun hcnd => absurd hcnd hnc⟩,
      fun _ => rfl⟩

/-! ## Claim C1 -/

/-- C1: for every `rootDir` (carrying no trailing separator, as the
server's `publicRoot` never does), bucket and key segments,
`resolveSafePath` returns the lexically normalized candidate path
exactly when that path equals `rootDir` or is a separator-bounded
descendant of it, and fails with the `Invalid path` error otherwise;
in particular a `..` segment list escaping the root is rejected, and a
sibling sharing `rootDir` as a bare string prefix (`/data/abc` against
root `/data/ab`) is rejected.  The function is pure: it performs no
filesystem access, being defined by path arithmetic alone. -/
theorem c1_resolveSafePath_containment (rootDir : String) (segs : List String)
    (hroot : strEnds rootDir "/" = false) :
    ((resolveSafePath rootDir segs = Except.ok (resolveCandidate rootDir segs) ↔
        (resolveCandidate rootDir segs = rootDir ∨
         strStarts (resolveCandidate rootDir segs) (rootDir ++ "/") = true)) ∧
      (¬ (resolveCandidate rootDir segs = rootDir ∨
          strStarts (resolveCandidate rootDir segs) (rootDir ++ "/") = true) →
        resolveSafePath rootDir segs = Except.error "Invalid path")) ∧
    resolveSafePath "/data/ab" ["..", "abc"] = Except.error "Invalid path" ∧
    resolveSafePath "/data/ab" ["c", "..", "..", ".."] =
      Except.error "Invalid path" := by
  refine ⟨resolveSafePath_spec rootDir segs hroot, by decide, by decide⟩

/-- Witness for C1 at the concrete instance `rootDir = "/data"`,
`segs = ["x"]`. -/
theorem c1_resolveSafePath_containment_witness :
    strEnds "/data" "/" = false ∧
    (((resolveSafePath "/data" ["x"] =
          Except.ok (resolveCandidate "/data" ["x"]) ↔
        (resolveCandidate "/data" ["x"] = "/data" ∨
         strStarts (resolveCandidate "/data" ["x"]) ("/data" ++ "/") = true)) ∧
      (¬ (resolveCandidate "/data" ["x"] = "/data" ∨
          strStarts (resolveCandidate "/data" ["x"]) ("/data" ++ "/") = true) →
        resolveSafePath "/data" ["x"] = Except.error "Invalid path")) ∧
    resolveSafePath "/data/ab" ["..", "abc"] = Except.error "Invalid path" ∧
    resolveSafePath "/data/ab" ["c", "..", "..", ".."] =
      Except.error "Invalid path") :=
  ⟨by decide, c1_resolveSafePath_containment "/data" ["x"] (by decide)⟩

/-! ## Claim C7 -/

/-- C7 counterexample: the absolute key segment `/data/foo` denotes a
location inside the root `/data`, and `resolveSafePath` accepts it
(returning the path unchanged) instead of failing with the
`Invalid path` error as the claim demands. -/
theorem c7_absolute_inside_root_counterexample :
    resolveSafePath "/data" ["/data/foo"] = Except.ok "/data/foo" := by decide

/-- C7 amended: an absolute key segment is rejected with the
`Invalid path` error exactly when the path it resolves to (which
ignores `rootDir`, as `path.resolve` restarts at an absolute argument)
falls outside `rootDir`; an absolute segment that lands on the root or
a separator-bounded descendant of it is accepted and resolved
verbatim after normalization. -/
theorem c7_absolute_segment_amended (rootDir seg : String)
    (hroot : strEnds rootDir "/" = false)
    (_habs : strStarts seg "/" = true) :
    (¬ (resolveCandidate rootDir [seg] = rootDir ∨
        strStarts (resolveCandidate rootDir [seg]) (rootDir ++ "/") = true) →
      resolveSafePath rootDir [seg] = Except.error "Invalid path") ∧
    ((resolveCandidate rootDir [seg] = rootDir ∨
      strStarts (resolveCandidate rootDir [seg]) (rootDir ++ "/") = true) →
      resolveSafePath rootDir [seg] = Except.ok (resolveCandidate rootDir [seg])) := by
  have hs := resolveSafePath_spec rootDir [seg] hroot
  exact ⟨hs.2, fun hcnd => hs.1.mpr hcnd⟩

/-- Witness for C7 amended at `rootDir = "/data"`, `seg = "/etc/x"`,
an absolute segment resolving outside the root. -/
theorem c7_absolute_segment_amended_witness :
    strEnds "/data" "/" = false ∧ strStarts "/etc/x" "/" = true ∧
    (¬ (resolveCandidate "/data" ["/etc/x"] = "/data" ∨
        strStarts (resolveCandidate "/data" ["/etc/x"]) ("/data" ++ "/") = true) →
      resolveSafePath "/data" ["/etc/x"] = Except.error "Invalid path") ∧
    ((resolveCandidate "/data" ["/etc/x"] = "/data" ∨
      strStarts (resolveCandidate "/data" ["/etc/x"]) ("/data" ++ "/") = true) →
      resolveSafePath "/data" ["/etc/x"] =
        Except.ok (resolveCandidate "/data" ["/etc/x"])) :=
  ⟨by decide, by decide,
    c7_absolute_segment_amended "/data" "/etc/x" (by decide) (by decide)⟩

/-! ## Claim C4 -/

/-- C4: the content fingerprint `sha256HexStr` renders the 256-bit
SHA-256 digest as exactly 64 lowercase hexadecimal characters and is a
function of the content bytes alone; consequently two hashed uploads
whose logical keys yield the same directory component, whose
original-name/key pair yields the same extension, and whose contents
are identical compute the same final key and the same resolved final
path — independently of the random staged filename, which does not
enter `postFinalKeyOf` at all. -/
theorem c4_fingerprint_content_addressing :
    (∀ bs : List Nat, (sha256HexStr bs).length = 64 ∧
      ∀ c ∈ (sha256HexStr bs).data, c ∈ hexAlphabet.data) ∧
    (∀ (root bucket fk1 o1 fk2 o2 : String) (content : List Nat),
      keyDirPart fk1 = keyDirPart fk2 →
      postExtOf o1 fk1 = postExtOf o2 fk2 →
      postFinalKeyOf fk1 o1 content = postFinalKeyOf fk2 o2 content ∧
      resolveSafePath root [bucket, postFinalKeyOf fk1 o1 content] =
        resolveSafePath root [bucket, postFinalKeyOf fk2 o2 content]) := by
  constructor
  · intro bs
    exact ⟨sha256HexStr_length bs, fun c hc => bytesToHexL_mem _ c hc⟩
  · intro root bucket fk1 o1 fk2 o2 content hdir hext
    have hkey : postFinalKeyOf fk1 o1 content = postFinalKeyOf fk2 o2 content := by
      unfold postFinalKeyOf
      rw [hdir, hext]
    exact ⟨hkey, by rw [hkey]⟩

/-- Witness for C4: the concrete digest of `hi`, and two requests that
differ in their staged names and in which form field carried the key
(`a/x.txt` via `key` against `a/y.txt` via `Key`) but share directory,
extension and content. -/
theorem c4_fingerprint_content_addressing_witness :
    ((sha256HexStr [104, 105]).length = 64 ∧
      ∀ c ∈ (sha256HexStr [104, 105]).data, c ∈ hexAlphabet.data) ∧
    (postFinalKeyOf "a/x.txt" "" [104, 105] =
        postFinalKeyOf "a/y.txt" "" [104, 105] ∧
      resolveSafePath "/srv" ["b", postFinalKeyOf "a/x.txt" "" [104, 105]] =
        resolveSafePath "/srv" ["b", postFinalKeyOf "a/y.txt" "" [104, 105]]) :=
  ⟨c4_fingerprint_content_addressing.1 [104, 105],
   c4_fingerprint_content_addressing.2 "/srv" "b" "a/x.txt" "" "a/y.txt" ""
     [104, 105] (by decide) (by decide)⟩

/-! ## Claim C5 -/

/-- C5 counterexample: a request with logical key `a/file.txt` and
original filename `photo.png` gets the final name
`a/<fingerprint>.png` — the extension comes from the original filename,
not from the logical key as the claim states (which would give
`a/<fingerprint>.txt`). -/
theorem c5_extension_source_counterexample :
    postFinalKeyOf "a/file.txt" "photo.png" helloBytes =
      "a/" ++ helloHex ++ ".png" ∧
    postFinalKeyOf "a/file.txt" "photo.png" helloBytes ≠
      "a/" ++ helloHex ++ ".txt" := by decide

/-- C5 amended: for every hashed upload only the logical key's
directory component and the derived extension determine the final
object name; the final leaf is the content fingerprint followed by the
extension of the original filename when one is present, falling back to
the logical key's extension (line 93 prefers `originalname` over the
key); when both the logical key and the original filename are empty the
final name is the bare fingerprint hex with no extension. -/
theorem c5_final_name_amended (fullKey originalname : String)
    (content : List Nat) :
    postFinalKeyOf fullKey originalname content =
      mkKeyIn (keyDirPart fullKey)
        (sha256HexStr content ++
          extname (if originalname ≠ "" then originalname else fullKey)) ∧
    (originalname = "" → fullKey = "" →
      postFinalKeyOf fullKey originalname content = sha256HexStr content) := by
  constructor
  · rfl
  · intro ho hk
    subst ho hk
    show mkKeyIn "" (sha256HexStr content ++ "") = sha256HexStr content
    rw [show mkKeyIn "" (sha256HexStr content ++ "") =
          sha256HexStr content ++ "" from rfl]
    apply String.ext
    rw [String.data_append]
    simp

/-- Witness for C5 amended at the empty-key, empty-filename boundary
with content `hello`. -/
theorem c5_final_name_amended_witness :
    postFinalKeyOf "" "" helloBytes = sha256HexStr helloBytes :=
  (c5_final_name_amended "" "" helloBytes).2 rfl rfl

/-! ## Claim C10 -/

/-- C10: the logical key is read from the form field `key` and, when
that is falsy, from the capitalized `Key` alias, in all three places
that parse it — the multer destination callback, the multer filename
callback, and the upload handler — so a request supplying the key only
through `Key` behaves identically to one supplying it through `key`. -/
theorem c10_key_field_fallback :
    (∀ root bucket v : String,
      storageDestination root bucket v "" = storageDestination root bucket "" v) ∧
    (∀ v originalname randomHex : String,
      storageFilename v "" originalname randomHex =
        storageFilename "" v originalname randomHex) ∧
    (∀ (env : PostEnv) (root bucket v originalname saved : String)
        (size : Nat) (fs : FS),
      postHandler env root ⟨bucket, v, "", originalname, saved, size⟩ fs =
        postHandler env root ⟨bucket, "", v, originalname, saved, size⟩ fs) := by
  have hswap : ∀ v : String, pickKey v "" = pickKey "" v := by
    intro v
    by_cases h : v = "" <;> simp [pickKey, h]
  refine ⟨fun root bucket v => ?_, fun v o r => ?_,
    fun env root bucket v o s z fs => ?_⟩
  · simp only [storageDestination, hswap]
  · simp only [storageFilename, hswap]
  · simp only [postHandler, hswap]

/-! ## Claim C2 -/

set_option maxRecDepth 4000 in
/-- C2 counterexample: a second upload of `hello` (same bucket, empty
directory and extension) finds the object already at its address,
deletes the staged copy, and answers 200 leaving exactly the one
object — but its response carries no `deduplicated` field at all,
against the claim's `reporting deduplicated = true`. -/
theorem c2_dedup_report_counterexample :
    (postHandler cleanPostEnv "/srv" ⟨"b", "", "", "", "tmp2", 5⟩
        [("/srv/b/tmp2", helloBytes), ("/srv/b/" ++ helloHex, helloBytes)]).1.1 =
      200 ∧
    List.lookup "deduplicated"
      (postHandler cleanPostEnv "/srv" ⟨"b", "", "", "", "tmp2", 5⟩
        [("/srv/b/tmp2", helloBytes), ("/srv/b/" ++ helloHex, helloBytes)]).1.2 =
      none ∧
    (postHandler cleanPostEnv "/srv" ⟨"b", "", "", "", "tmp2", 5⟩
        [("/srv/b/tmp2", helloBytes), ("/srv/b/" ++ helloHex, helloBytes)]).2 =
      [("/srv/b/" ++ helloHex, helloBytes)] := by decide

/-- C2 amended: finalizing a staged file against the final
content-addressed path deletes the staged file and preserves the
pre-existing object's bytes when the destination exists, renames the
staged file there when it does not, and in both outcomes leaves exactly
one file at the final path and none at the staged path; a second upload
of identical content finds the shared address occupied and ends with
exactly one object and no stray temporary file — but no
`deduplicated` flag is reported: no response of the upload handler
ever contains such a field. -/
theorem c2_finalize_dedup_amended (tempPath finalPath : String) (fs : FS)
    (hne : tempPath ≠ finalPath) :
    (∀ b0 c, fsLookup fs finalPath = some b0 → fsLookup fs tempPath = some c →
      finalizeStep cleanPostEnv tempPath finalPath fs =
        Except.ok (fsRemove tempPath fs) ∧
      fsLookup (fsRemove tempPath fs) finalPath = some b0 ∧
      fsLookup (fsRemove tempPath fs) tempPath = none ∧
      (fsCount fs finalPath = 1 → fsCount (fsRemove tempPath fs) finalPath = 1) ∧
      fsCount (fsRemove tempPath fs) tempPath = 0) ∧
    (∀ c, fsLookup fs finalPath = none → fsLookup fs tempPath = some c →
      finalizeStep cleanPostEnv tempPath finalPath fs =
        Except.ok (fsInsert finalPath c (fsRemove tempPath fs)) ∧
      fsLookup (fsInsert finalPath c (fsRemove tempPath fs)) finalPath = some c ∧
      fsLookup (fsInsert finalPath c (fsRemove tempPath fs)) tempPath = none ∧
      fsCount (fsInsert finalPath c (fsRemove tempPath fs)) finalPath = 1 ∧
      fsCount (fsInsert finalPath c (fsRemove tempPath fs)) tempPath = 0) ∧
    (∀ c temp2, temp2 ≠ finalPath → temp2 ≠ tempPath →
      fsLookup fs finalPath = none → fsLookup fs tempPath = some c →
      (let fs2 := fsInsert temp2 c (fsInsert finalPath c (fsRemove tempPath fs))
       finalizeStep cleanPostEnv temp2 finalPath fs2 =
         Except.ok (fsRemove temp2 fs2) ∧
       fsLookup (fsRemove temp2 fs2) finalPath = some c ∧
       fsCount (fsRemove temp2 fs2) finalPath = 1 ∧
       fsLookup (fsRemove temp2 fs2) temp2 = none ∧
       fsLookup (fsRemove temp2 fs2) tempPath = none)) ∧
    (∀ (env2 : PostEnv) (root : String) (req : PostReq) (fs0 : FS),
      List.lookup "deduplicated" (postHandler env2 root req fs0).1.2 = none) := by
  have hne' : finalPath ≠ tempPath := fun h => hne h.symm
  refine ⟨?_, ?_, ?_, ?_⟩
  · intro b0 c hfin htmp
    refine ⟨?_, ?_, ?_, ?_, ?_⟩
    · simp [finalizeStep, finalizeCheckedAct, cleanPostEnv, hfin, htmp]
    · rw [fsLookup_fsRemove_ne tempPath finalPath fs hne']
      exact hfin
    · exact fsLookup_fsRemove_self tempPath fs
    · intro h1
      rw [fsCount_fsRemove_ne tempPath finalPath fs hne']
      exact h1
    · exact fsCount_fsRemove_self tempPath fs
  · intro c hfin htmp
    refine ⟨?_, ?_, ?_, ?_, ?_⟩
    · simp [finalizeStep, finalizeCheckedAct, cleanPostEnv, hfin, htmp]
    · exact fsLookup_fsInsert_self finalPath c (fsRemove tempPath fs)
    · rw [fsLookup_fsInsert_ne finalPath tempPath c (fsRemove tempPath fs) hne]
      exact fsLookup_fsRemove_self tempPath fs
    · exact fsCount_fsInsert_self finalPath c (fsRemove tempPath fs)
    · rw [fsCount_fsInsert_ne finalPath tempPath c (fsRemove tempPath fs) hne]
      exact fsCount_fsRemove_self tempPath fs
  · intro c temp2 h2f h2t hfin htmp
    have hf2 : finalPath ≠ temp2 := fun h => h2f h.symm
    have ht2 : tempPath ≠ temp2 := fun h => h2t h.symm
    have hlookF : fsLookup
        (fsInsert temp2 c (fsInsert finalPath c (fsRemove tempPath fs)))
        finalPath = some c := by
      rw [fsLookup_fsInsert_ne temp2 finalPath c _ hf2]
      exact fsLookup_fsInsert_self finalPath c (fsRemove tempPath fs)
    have hlookT2 : fsLookup
        (fsInsert temp2 c (fsInsert finalPath c (fsRemove tempPath fs)))
        temp2 = some c :=
      fsLookup_fsInsert_self temp2 c _
    refine ⟨?_, ?_, ?_, ?_, ?_⟩
    · simp [finalizeStep, finalizeCheckedAct, cleanPostEnv, hlookF, hlookT2]
    · rw [fsLookup_fsRemove_ne temp2 finalPath _ hf2]
      exact hlookF
    · rw [fsCount_fsRemove_ne temp2 finalPath _ hf2,
        fsCount_fsInsert_ne temp2 finalPath c _ hf2]
      exact fsCount_fsInsert_self finalPath c (fsRemove tempPath fs)
    · exact fsLookup_fsRemove_self temp2 _
    · rw [fsLookup_fsRemove_ne temp2 tempPath _ ht2,
        fsLookup_fsInsert_ne temp2 tempPath c _ ht2,
        fsLookup_fsInsert_ne finalPath tempPath c _ hne]
      exact fsLookup_fsRemove_self tempPath fs
  · intro env2 root req fs0
    simp only [postHandler, postCore]
    repeat' split
    all_goals rfl

/-- Witness for C2 amended at concrete paths and the `hello` content:
a first (fresh) finalize and a second (deduplicating) finalize. -/
theorem c2_finalize_dedup_amended_witness :
    finalizeStep cleanPostEnv "/srv/b/tmp1" ("/srv/b/" ++ helloHex)
        [("/srv/b/tmp1", helloBytes)] =
      Except.ok (fsInsert ("/srv/b/" ++ helloHex) helloBytes
        (fsRemove "/srv/b/tmp1" [("/srv/b/tmp1", helloBytes)])) ∧
    (let fs2 := fsInsert "/srv/b/tmp2" helloBytes
        (fsInsert ("/srv/b/" ++ helloHex) helloBytes
          (fsRemove "/srv/b/tmp1" [("/srv/b/tmp1", helloBytes)]))
     finalizeStep cleanPostEnv "/srv/b/tmp2" ("/srv/b/" ++ helloHex) fs2 =
       Except.ok (fsRemove "/srv/b/tmp2" fs2) ∧
     fsLookup (fsRemove "/srv/b/tmp2" fs2) ("/srv/b/" ++ helloHex) =
       some helloBytes ∧
     fsCount (fsRemove "/srv/b/tmp2" fs2) ("/srv/b/" ++ helloHex) = 1 ∧
     fsLookup (fsRemove "/srv/b/tmp2" fs2) "/srv/b/tmp2" = none ∧
     fsLookup (fsRemove "/srv/b/tmp2" fs2) "/srv/b/tmp1" = none) :=
  ⟨((c2_finalize_dedup_amended "/srv/b/tmp1" ("/srv/b/" ++ helloHex)
      [("/srv/b/tmp1", helloBytes)] (by decide)).2.1 helloBytes
      (by decide) (by decide)).1,
   (c2_finalize_dedup_amended "/srv/b/tmp1" ("/srv/b/" ++ helloHex)
      [("/srv/b/tmp1", helloBytes)] (by decide)).2.2.1 helloBytes
      "/srv/b/tmp2" (by decide) (by decide) (by decide) (by decide)⟩

/-! ## Claim C3 -/

/-- C3 counterexample: the destination `/r/b/F` appears after the
loser's existence check (stale `destExists = false`) and before its
move; the move then does not fail at all — POSIX `rename` silently
replaces the destination with the loser's staged bytes and consumes the
staged file — so there is no failure for the loser to detect, no
discard of its staged file, and (as every upload response lacks the
field) no `deduplicated = true` report.  The pre-existing destination
bytes `[1, 2, 3]` are replaced by the staged bytes. -/
theorem c3_race_loser_counterexample :
    finalizeCheckedAct cleanPostEnv false "/r/b/t2" "/r/b/F"
        [("/r/b/F", [1, 2, 3]), ("/r/b/t2", helloBytes)] =
      Except.ok [("/r/b/F", helloBytes)] := by decide

/-- C3 amended: when two hashed uploads of identical content finalize
concurrently and both existence checks precede the winner's move, the
loser's `rename` silently overwrites the destination with its own
(identical) staged bytes instead of failing; neither request gets an
error, at most one file ever exists at the final address, and both
staged files are gone — but nothing is detected or reported by the
loser. -/
theorem c3_race_amended (tempA tempB finalPath : String) (c : List Nat)
    (fs : FS) (hAB : tempA ≠ tempB) (hA : tempA ≠ finalPath)
    (hB : tempB ≠ finalPath) (h0 : fsLookup fs finalPath = none)
    (ha : fsLookup fs tempA = some c) (hb2 : fsLookup fs tempB = some c) :
    let fs1 := fsInsert finalPath c (fsRemove tempA fs)
    let fs2 := fsInsert finalPath c (fsRemove tempB fs1)
    finalizeCheckedAct cleanPostEnv (fsLookup fs finalPath).isSome
        tempA finalPath fs = Except.ok fs1 ∧
    finalizeCheckedAct cleanPostEnv (fsLookup fs finalPath).isSome
        tempB finalPath fs1 = Except.ok fs2 ∧
    fsCount fs2 finalPath = 1 ∧ fsLookup fs2 finalPath = some c ∧
    fsLookup fs2 tempA = none ∧ fsLookup fs2 tempB = none := by
  intro fs1 fs2
  have hBA : tempB ≠ tempA := fun h => hAB h.symm
  have hFA : finalPath ≠ tempA := fun h => hA h.symm
  have hFB : finalPath ≠ tempB := fun h => hB h.symm
  have hb1 : fsLookup fs1 tempB = some c := by
    show fsLookup (fsInsert finalPath c (fsRemove tempA fs)) tempB = some c
    rw [fsLookup_fsInsert_ne finalPath tempB c _ hB,
      fsLookup_fsRemove_ne tempA tempB fs hBA]
    exact hb2
  refine ⟨?_, ?_, ?_, ?_, ?_, ?_⟩
  · simp [finalizeCheckedAct, cleanPostEnv, h0, ha]
  · simp [finalizeCheckedAct, cleanPostEnv, h0, hb1]
  · show fsCount (fsInsert finalPath c (fsRemove tempB fs1)) finalPath = 1
    exact fsCount_fsInsert_self finalPath c _
  · exact fsLookup_fsInsert_self finalPath c _
  · show fsLookup (fsInsert finalPath c (fsRemove tempB fs1)) tempA = none
    rw [fsLookup_fsInsert_ne finalPath tempA c _ hA,
      fsLookup_fsRemove_ne tempB tempA _ hAB]
    show fsLookup (fsInsert finalPath c (fsRemove tempA fs)) tempA = none
    rw [fsLookup_fsInsert_ne finalPath tempA c _ hA]
    exact fsLookup_fsRemove_self tempA fs
  · show fsLookup (fsInsert finalPath c (fsRemove tempB fs1)) tempB = none
    rw [fsLookup_fsInsert_ne finalPath tempB c _ hB]
    exact fsLookup_fsRemove_self tempB fs1

/-- Witness for C3 amended at concrete paths with the `hello` bytes. -/
theorem c3_race_amended_witness :
    let fs0 : FS := [("/r/b/t1", helloBytes), ("/r/b/t2", helloBytes)]
    let fs1 := fsInsert "/r/b/F" helloBytes (fsRemove "/r/b/t1" fs0)
    let fs2 := fsInsert "/r/b/F" helloBytes (fsRemove "/r/b/t2" fs1)
    finalizeCheckedAct cleanPostEnv (fsLookup fs0 "/r/b/F").isSome
        "/r/b/t1" "/r/b/F" fs0 = Except.ok fs1 ∧
    finalizeCheckedAct cleanPostEnv (fsLookup fs0 "/r/b/F").isSome
        "/r/b/t2" "/r/b/F" fs1 = Except.ok fs2 ∧
    fsCount fs2 "/r/b/F" = 1 ∧ fsLookup fs2 "/r/b/F" = some helloBytes ∧
    fsLookup fs2 "/r/b/t1" = none ∧ fsLookup fs2 "/r/b/t2" = none :=
  c3_race_amended "/r/b/t1" "/r/b/t2" "/r/b/F" helloBytes
    [("/r/b/t1", helloBytes), ("/r/b/t2", helloBytes)]
    (by decide) (by decide) (by decide) (by decide) (by decide) (by decide)

/-! ## Claim C9 -/

/-- C9: two direct writes to the same explicit key with different
bodies leave only the second payload's bytes at that key — the
direct-write path truncates-or-creates the destination and
unconditionally replaces prior content, with no staging and no
deduplication, answering 200. -/
theorem c9_direct_write_overwrite (root bucket key : String)
    (b1 b2 : List Nat) (fs : FS) (outPath : String) (hk : key ≠ "")
    (hres : resolveSafePath root [bucket, key] = Except.ok outPath) :
    let fs1 := (putHandler cleanPutEnv root bucket key b1 fs).2
    let fs2 := (putHandler cleanPutEnv root bucket key b2 fs1).2
    fs1 = fsInsert outPath b1 fs ∧
    fs2 = fsInsert outPath b2 fs1 ∧
    fsLookup fs2 outPath = some b2 ∧
    fsCount fs2 outPath = 1 ∧
    (putHandler cleanPutEnv root bucket key b2 fs1).1.1 = 200 := by
  intro fs1 fs2
  have h1 : ∀ b : List Nat, ∀ g : FS,
      putHandler cleanPutEnv root bucket key b g =
        ((200, [("bucket", JVal.str bucket), ("key", JVal.str key),
                ("path", JVal.str outPath),
                ("url", JVal.str (slashify ("/public/" ++ bucket ++ "/" ++ key)))]),
         fsInsert outPath b g) := by
    intro b g
    simp [putHandler, hk, hres, cleanPutEnv]
  refine ⟨?_, ?_, ?_, ?_, ?_⟩
  · show (putHandler cleanPutEnv root bucket key b1 fs).2 = fsInsert outPath b1 fs
    rw [h1 b1 fs]
  · show (putHandler cleanPutEnv root bucket key b2 fs1).2 =
      fsInsert outPath b2 fs1
    rw [h1 b2 fs1]
  · show fsLookup (putHandler cleanPutEnv root bucket key b2 fs1).2 outPath =
      some b2
    rw [h1 b2 fs1]
    exact fsLookup_fsInsert_self outPath b2 fs1
  · show fsCount (putHandler cleanPutEnv root bucket key b2 fs1).2 outPath = 1
    rw [h1 b2 fs1]
    exact fsCount_fsInsert_self outPath b2 fs1
  · rw [h1 b2 fs1]

/-- Witness for C9: two direct writes of `[1, 2]` then `[9]` to key
`k` in bucket `b`. -/
theorem c9_direct_write_overwrite_witness :
    let fs1 := (putHandler cleanPutEnv "/r" "b" "k" [1, 2] []).2
    let fs2 := (putHandler cleanPutEnv "/r" "b" "k" [9] fs1).2
    fs1 = fsInsert "/r/b/k" [1, 2] [] ∧
    fs2 = fsInsert "/r/b/k" [9] fs1 ∧
    fsLookup fs2 "/r/b/k" = some [9] ∧
    fsCount fs2 "/r/b/k" = 1 ∧
    (putHandler cleanPutEnv "/r" "b" "k" [9] fs1).1.1 = 200 :=
  c9_direct_write_overwrite "/r" "b" "k" [1, 2] [9] [] "/r/b/k"
    (by decide) (by decide)

/-! ## Claim C6 -/

/-- C6 counterexample: a successful direct write answers with only
`bucket`, `key`, `path` and `url` — there is no byte-size field — and
the URL is `/public/b/k`, not the claimed form `/b/k`. -/
theorem c6_put_response_counterexample :
    putHandler cleanPutEnv "/r" "b" "k" [1, 2] [] =
      ((200, [("bucket", JVal.str "b"), ("key", JVal.str "k"),
              ("path", JVal.str "/r/b/k"), ("url", JVal.str "/public/b/k")]),
       [("/r/b/k", [1, 2])]) ∧
    List.lookup "size" (putHandler cleanPutEnv "/r" "b" "k" [1, 2] []).1.2 =
      none ∧
    List.lookup "url" (putHandler cleanPutEnv "/r" "b" "k" [1, 2] []).1.2 ≠
      some (JVal.str "/b/k") := by decide

/-- C6 amended: on success the hashed-upload entry point returns
`bucket`, the resolved key and path, a retrieval URL of the form
`/public/<bucket>/<key>`, the byte size, and the content fingerprint;
the direct-write entry point returns only `bucket`, `key`, `path` and a
URL of the same `/public/...` form — it reports neither a byte size nor
a fingerprint. -/
theorem c6_response_shape_amended
    (env : PostEnv) (root : String) (req : PostReq) (fs : FS)
    (tempPath finalPath : String) (content : List Nat) (fs2 : FS)
    (hsv : req.savedFileName ≠ "")
    (h1 : resolveSafePath root [req.bucket,
        mkKeyIn (keyDirPart (pickKey req.key req.keyCap)) req.savedFileName] =
      Except.ok tempPath)
    (h2 : fsLookup fs tempPath = some content)
    (h3 : resolveSafePath root [req.bucket,
        postFinalKeyOf (pickKey req.key req.keyCap) req.originalname content] =
      Except.ok finalPath)
    (h4 : finalizeStep env tempPath finalPath fs = Except.ok fs2) :
    postHandler env root req fs =
      ((200,
        [("bucket", JVal.str req.bucket),
         ("key", JVal.str (postFinalKeyOf (pickKey req.key req.keyCap)
            req.originalname content)),
         ("path", JVal.str finalPath),
         ("url", JVal.str (slashify ("/public/" ++ req.bucket ++ "/" ++
            postFinalKeyOf (pickKey req.key req.keyCap) req.originalname content))),
         ("size", JVal.num req.size),
         ("sha256", JVal.str (sha256HexStr content))]), fs2) ∧
    (∀ (envp : PutEnv) (bucket key : String) (body : List Nat) (fsp : FS)
        (outPath : String), key ≠ "" → envp.mkdirErr = none →
      envp.streamErr = none →
      resolveSafePath root [bucket, key] = Except.ok outPath →
      putHandler envp root bucket key body fsp =
        ((200, [("bucket", JVal.str bucket), ("key", JVal.str key),
                ("path", JVal.str outPath),
                ("url", JVal.str (slashify ("/public/" ++ bucket ++ "/" ++ key)))]),
         fsInsert outPath body fsp)) ∧
    (∀ b k p u : JVal,
      List.lookup "size" [("bucket", b), ("key", k), ("path", p), ("url", u)] =
        none ∧
      List.lookup "sha256" [("bucket", b), ("key", k), ("path", p), ("url", u)] =
        none) := by
  refine ⟨?_, ?_, ?_⟩
  · simp [postHandler, postCore, hsv, h1, h2, h3, h4]
  · intro envp bucket key body fsp outPath hk hmk hstr hres
    simp [putHandler, hk, hres, hmk, hstr]
  · intro b k p u
    exact ⟨rfl, rfl⟩

set_option maxRecDepth 4000 in
/-- Witness for C6 amended: an upload of `hello` with empty key into
bucket `b`, together with a direct write of `[1, 2]` to key `k`. -/
theorem c6_response_shape_amended_witness :
    postHandler cleanPostEnv "/srv" ⟨"b", "", "", "", "tmp1", 5⟩
        [("/srv/b/tmp1", helloBytes)] =
      ((200,
        [("bucket", JVal.str "b"),
         ("key", JVal.str (postFinalKeyOf "" "" helloBytes)),
         ("path", JVal.str ("/srv/b/" ++ helloHex)),
         ("url", JVal.str (slashify ("/public/" ++ "b" ++ "/" ++
            postFinalKeyOf "" "" helloBytes))),
         ("size", JVal.num 5),
         ("sha256", JVal.str (sha256HexStr helloBytes))]),
       fsInsert ("/srv/b/" ++ helloHex) helloBytes
         (fsRemove "/srv/b/tmp1" [("/srv/b/tmp1", helloBytes)])) :=
  (c6_response_shape_amended cleanPostEnv "/srv" ⟨"b", "", "", "", "tmp1", 5⟩
    [("/srv/b/tmp1", helloBytes)] "/srv/b/tmp1" ("/srv/b/" ++ helloHex)
    helloBytes
    (fsInsert ("/srv/b/" ++ helloHex) helloBytes
      (fsRemove "/srv/b/tmp1" [("/srv/b/tmp1", helloBytes)]))
    (by decide) (by decide) (by decide) (by decide) (by decide)).1

/-! ## Claim C8 -/

set_option maxRecDepth 4000 in
/-- C8 counterexample: a `rename` failure (an injected `EIO`, a
filesystem failure unrelated to destination pre-existence) during a
fresh hashed upload is answered with status 400 — the client-error
status carrying the error message — not with a server-error status as
the claim requires. -/
theorem c8_fs_error_counterexample :
    postHandler ⟨none, none, some "EIO: i/o error, rename"⟩ "/srv"
        ⟨"b", "", "", "", "tmp1", 5⟩ [("/srv/b/tmp1", helloBytes)] =
      ((400, [("error", JVal.str "EIO: i/o error, rename")]),
       [("/srv/b/tmp1", helloBytes)]) := by decide

/-- C8 amended: path-resolution failures and missing required inputs
yield client-error (400) results on both entry points, but filesystem
failures are not turned into server errors uniformly: the hashed
entry point's single catch answers 400 for every failure — its status
is always 200 or 400, and in particular a rename failure unrelated to
destination pre-existence is a 400 — while on the direct-write entry
point a `mkdir` failure is a 400 and only a write-stream failure is a
500 server error (leaving the partial bytes in place). -/
theorem c8_error_classification_amended :
    (∀ (env : PostEnv) (root : String) (req : PostReq) (fs : FS),
      (postHandler env root req fs).1.1 = 200 ∨
        (postHandler env root req fs).1.1 = 400) ∧
    (∀ (root : String) (req : PostReq) (fs : FS) (tempPath : String)
        (content : List Nat) (finalPath : String) (m : String),
      req.savedFileName ≠ "" →
      resolveSafePath root [req.bucket,
          mkKeyIn (keyDirPart (pickKey req.key req.keyCap)) req.savedFileName] =
        Except.ok tempPath →
      fsLookup fs tempPath = some content →
      resolveSafePath root [req.bucket,
          postFinalKeyOf (pickKey req.key req.keyCap) req.originalname content] =
        Except.ok finalPath →
      fsLookup fs finalPath = none →
      postHandler ⟨none, none, some m⟩ root req fs = (errResp 400 m, fs)) ∧
    (∀ (env : PutEnv) (root bucket : String) (body : List Nat) (fs : FS),
      putHandler env root bucket "" body fs = (errResp 400 "Missing key", fs)) ∧
    (∀ (env : PutEnv) (root bucket key m : String) (body : List Nat) (fs : FS),
      key ≠ "" → resolveSafePath root [bucket, key] = Except.error m →
      putHandler env root bucket key body fs = (errResp 400 m, fs)) ∧
    (∀ (env : PutEnv) (root bucket key m : String) (body : List Nat) (fs : FS)
        (outPath : String),
      key ≠ "" → resolveSafePath root [bucket, key] = Except.ok outPath →
      env.mkdirErr = some m →
      putHandler env root bucket key body fs = (errResp 400 m, fs)) ∧
    (∀ (env : PutEnv) (root bucket key m : String) (body partial0 : List Nat)
        (fs : FS) (outPath : String),
      key ≠ "" → resolveSafePath root [bucket, key] = Except.ok outPath →
      env.mkdirErr = none → env.streamErr = some (m, partial0) →
      putHandler env root bucket key body fs =
        (errResp 500 m, fsInsert outPath partial0 fs)) := by
  refine ⟨?_, ?_, ?_, ?_, ?_, ?_⟩
  · intro env root req fs
    simp only [postHandler, postCore]
    repeat' split
    all_goals first
      | (left; rfl)
      | (right; rfl)
  · intro root req fs tempPath content finalPath m hsv h1 h2 h3 h4
    simp [postHandler, postCore, hsv, h1, h2, h3, finalizeStep,
      finalizeCheckedAct, h4]
  · intro env root bucket body fs
    simp [putHandler]
  · intro env root bucket key m body fs hk hres
    simp [putHandler, hk, hres]
  · intro env root bucket key m body fs outPath hk hres hmk
    simp [putHandler, hk, hres, hmk]
  · intro env root bucket key m body partial0 fs outPath hk hres hmk hstr
    simp [putHandler, hk, hres, hmk, hstr]

set_option maxRecDepth 4000 in
/-- Witness for C8 amended: a concrete status dichotomy instance, a
concrete rename failure answered 400, and a concrete stream failure
answered 500. -/
theorem c8_error_classification_amended_witness :
    ((postHandler cleanPostEnv "/srv" ⟨"b", "", "", "", "", 0⟩ []).1.1 = 200 ∨
      (postHandler cleanPostEnv "/srv" ⟨"b", "", "", "", "", 0⟩ []).1.1 = 400) ∧
    postHandler ⟨none, none, some "EIO"⟩ "/srv" ⟨"b", "", "", "", "tmp1", 5⟩
        [("/srv/b/tmp1", helloBytes)] =
      (errResp 400 "EIO", [("/srv/b/tmp1", helloBytes)]) ∧
    putHandler ⟨none, some ("ENOSPC", [1])⟩ "/r" "b" "k" [1, 2] [] =
      (errResp 500 "ENOSPC", fsInsert "/r/b/k" [1] []) :=
  ⟨c8_error_classification_amended.1 cleanPostEnv "/srv"
      ⟨"b", "", "", "", "", 0⟩ [],
   c8_error_classification_amended.2.1 "/srv" ⟨"b", "", "", "", "tmp1", 5⟩
      [("/srv/b/tmp1", helloBytes)] "/srv/b/tmp1" helloBytes
      ("/srv/b/" ++ helloHex) "EIO" (by decide) (by decide) (by decide)
      (by decide) (by decide),
   c8_error_classification_amended.2.2.2.2.2 ⟨none, some ("ENOSPC", [1])⟩
      "/r" "b" "k" "ENOSPC" [1, 2] [1] [] "/r/b/k" (by decide) (by decide)
      rfl rfl⟩
